import Mathlib

/-!
Verification development for a Nuxt/Directus route-protection module.

Shallow embedding of the repository's core:
- `src/runtime/directus.ts` — `checkAuthStatus` (session re-validation);
- `src/runtime/composables/useDirectusAuth.ts` — `userRoles`, `userRole`
  (the role-resolution pipeline) and the redirect step of `login`;
- `src/runtime/middleware/directus-auth.ts` — the navigation-guard
  middleware (`defineNuxtRouteMiddleware` body).

JavaScript values relevant to the role pipeline (a role field holds a
string, an array of strings, or null/undefined) are modelled by
`RoleValue`; JS truthiness of strings (`x || d` falls back on the empty
string) is modelled by `jsOrStr`.  The redirect cookie
("directus-auth-redirect", created with default "") is modelled as a
`String`, where `""` is the empty/absent state, exactly as the code's
truthiness checks treat it.
-/

namespace NuxtDirectus

/-- A JavaScript value that can appear in a user record's role field:
an array of strings, a (string) scalar, or null/undefined. -/
inductive RoleValue where
  | arr (xs : List String)
  | scalar (s : String)
  | nullv
deriving DecidableEq, Repr

/-- A Directus user record, an opaque key-value record
(`currentUser[roleField]` reads a field; a missing field is
undefined, modelled as `RoleValue.nullv`). -/
structure UserRecord where
  fields : List (String × RoleValue)
deriving DecidableEq, Repr

/-- Field access `user[key]`: JS property lookup, undefined when absent. -/
def getField (u : UserRecord) (key : String) : RoleValue :=
  match u.fields.lookup key with
  | some v => v
  | none => RoleValue.nullv

/-- JS `o || d` for an optional string `o`: falls back to `d` when `o`
is undefined or the empty string (both falsy). -/
def jsOrStr (o : Option String) (d : String) : String :=
  match o with
  | some s => if s = "" then d else s
  | none => d

/-- The `permissions` block of the module configuration
(`config.public.directus?.auth?.permissions`).  A transform is a host
supplied function that may throw; a throwing call is an `Except.error`. -/
structure PermissionsConfig where
  enabled : Bool := false
  field : Option String := none
  transform : Option (RoleValue → UserRecord → Except Unit RoleValue) := none
  mapping : Option (List (String × String)) := none

/-- One mapping step `permissionsConfig.mapping![role] || role`
(useDirectusAuth.ts line 325 and directus-auth.ts line 180): the mapped
value when an entry exists and is truthy (non-empty), else the role
unchanged. -/
def mapRole (m : List (String × String)) (role : String) : String :=
  match m.lookup role with
  | some v => if v = "" then role else v
  | none => role

/-- The guarded map `roles.map((role) => permissionsConfig.mapping![role] || role)`
behind `if (permissionsConfig.mapping)` — identity when no mapping is set. -/
def applyMapping (m : Option (List (String × String))) (roles : List String) : List String :=
  match m with
  | some mp => roles.map (mapRole mp)
  | none => roles

/-- Normalization to an array (useDirectusAuth.ts lines 314-321,
directus-auth.ts lines 169-176): `Array.isArray` first, then the
`!= null` scalar wrap, else the empty array. -/
def normalizeRoles : RoleValue → List String
  | RoleValue.arr xs => xs
  | RoleValue.scalar s => [s]
  | RoleValue.nullv => []

/-- The transform step with its try/catch (useDirectusAuth.ts lines
305-311, directus-auth.ts lines 160-166): when a transform is configured
and throws, the value keeps its pre-assignment (raw) state. -/
def applyTransform (c : PermissionsConfig) (raw : RoleValue) (u : UserRecord) : RoleValue :=
  match c.transform with
  | some f =>
    match f raw u with
    | Except.ok v => v
    | Except.error _ => raw
  | none => raw

/-- The shared role-resolution pipeline (field read, transform with
fallback, normalization, mapping).  This is the textually identical body
of useDirectusAuth.ts lines 301-328 and directus-auth.ts lines 156-181. -/
def resolveRoles (c : PermissionsConfig) (u : UserRecord) : List String :=
  let roleField := jsOrStr c.field "role"
  let raw := getField u roleField
  let v := applyTransform c raw u
  applyMapping c.mapping (normalizeRoles v)

/-- The `userRoles` computed of useDirectusAuth.ts (lines 295-329):
empty when there is no user or permissions are not enabled
(`!permissionsConfig?.enabled`), else the pipeline result. -/
def userRoles (u : Option UserRecord) (c : Option PermissionsConfig) : List String :=
  match u with
  | none => []
  | some user =>
    match c with
    | none => []
    | some cfg => if cfg.enabled then resolveRoles cfg user else []

/-- The `userRole` computed (lines 334-336): `userRoles.value[0] || null`,
i.e. null when the list is empty or its first element is the empty
string. -/
def userRole (u : Option UserRecord) (c : Option PermissionsConfig) : Option String :=
  match userRoles u c with
  | [] => none
  | r :: _ => if r = "" then none else some r

/-- The page-meta `auth` object variant (directus-auth.ts lines 10-38).
`unauthenticatedOnly` is an optional boolean only ever consulted by
truthiness, so it is modelled as a `Bool` defaulting to false. -/
structure AuthMetaObj where
  unauthenticatedOnly : Bool := false
  navigateAuthenticatedTo : Option String := none
  navigateUnauthenticatedTo : Option String := none
  roles : Option (List String) := none
  excludeRoles : Option (List String) := none
  unauthorizedRedirect : Option String := none
deriving DecidableEq, Repr

/-- The raw `to.meta?.auth` value: undefined, a boolean, or an object. -/
inductive AuthMetaRaw where
  | undef
  | boolMeta (b : Bool)
  | objMeta (o : AuthMetaObj)
deriving DecidableEq, Repr

/-- Resolution of `requiresAuth` (directus-auth.ts lines 65-83): false for
`auth: false`, true for `auth: true` or an object, and the global
middleware setting when `auth` is undefined. -/
def requiresAuthOf (m : AuthMetaRaw) (enableGlobalMiddleware : Bool) : Bool :=
  match m with
  | AuthMetaRaw.undef => enableGlobalMiddleware
  | AuthMetaRaw.boolMeta b => b
  | AuthMetaRaw.objMeta _ => true

/-- The resolved `authMeta` local (lines 64-83): the empty object for
`auth: true`, the object itself for `auth: {...}`, undefined otherwise. -/
def authMetaOf (m : AuthMetaRaw) : Option AuthMetaObj :=
  match m with
  | AuthMetaRaw.undef => none
  | AuthMetaRaw.boolMeta b => if b then some {} else none
  | AuthMetaRaw.objMeta o => some o

/-- Truthiness of `authMeta?.unauthenticatedOnly` on an optional object. -/
def metaUnauthOnly (m : Option AuthMetaObj) : Bool :=
  match m with
  | some o => o.unauthenticatedOnly
  | none => false

/-- Optional-chained field read `authMeta?.f` for an `Option String`
field. -/
def metaOpt (m : Option AuthMetaObj) (f : AuthMetaObj → Option String) : Option String :=
  match m with
  | some o => f o
  | none => none

/-- Optional-chained field read `authMeta?.f` for an optional list
field (`roles`, `excludeRoles`). -/
def metaList (m : Option AuthMetaObj) (f : AuthMetaObj → Option (List String)) : Option (List String) :=
  match m with
  | some o => f o
  | none => none

/-- The global configuration the middleware reads (lines 50-56), after
the destructuring defaults: login/register/after-login paths, the global
middleware flag, and the optional permissions block. -/
structure GuardConfig where
  loginPath : String
  registerPath : String
  afterLoginPath : String
  enableGlobalMiddleware : Bool := true
  permissions : Option PermissionsConfig := none

/-- A route as the middleware sees it: `path` and `fullPath`. -/
structure Route where
  path : String
  fullPath : String
deriving DecidableEq, Repr

/-- The guard's observable outcome: `return` (allow the navigation) or
`navigateTo(path)` (redirect). -/
inductive Outcome where
  | allow
  | redirect (path : String)
deriving DecidableEq, Repr

/-- The reactive session state set by `checkAuthStatus`
(directus.ts lines 69-70): the authenticated flag and the current user. -/
structure SessionState where
  authenticated : Bool
  user : Option UserRecord
deriving DecidableEq, Repr

/-- The operation `checkAuthStatus` (directus.ts lines 104-121): a successful `readMe`
sets `authenticated = true` and stores the record, returning it; any
failure is caught, sets `authenticated = false`, clears the user and
returns `false` (modelled `none`) instead of rethrowing.  The input is
the backend response to `readMe`. -/
def checkAuthStatus (resp : Except Unit UserRecord) : SessionState × Option UserRecord :=
  match resp with
  | Except.ok me => (⟨true, some me⟩, some me)
  | Except.error _ => (⟨false, none⟩, none)

/-- JS `s.startsWith(p)`: `p` is a character-prefix of `s`. -/
def strStartsWith (s p : String) : Bool :=
  p.data.isPrefixOf s.data

/-- The exemption test `[loginPath, registerPath].some((p) => path.startsWith(p))`
(line 86), also reused at lines 115 and 220 in negated form. -/
def onAuthPages (cfg : GuardConfig) (p : String) : Bool :=
  strStartsWith p cfg.loginPath || strStartsWith p cfg.registerPath

/-- Writing the redirect cookie (lines 114-117 and 220-222): store
`toR.fullPath` unless the target is under the login or register path. -/
def rememberTarget (cfg : GuardConfig) (toR : Route) (mem : String) : String :=
  if onAuthPages cfg toR.path then mem else toR.fullPath

/-- The role-requirement checks of the authenticated branch
(lines 183-207), run only with a current user: the `roles` allow-list
check first (redirecting when no required role is held), then — also
when the allow-list check passed — the `excludeRoles` check. -/
def roleChecks (pc : PermissionsConfig) (m : Option AuthMetaObj)
    (u : UserRecord) (mem : String) : Outcome × String :=
  let rs := resolveRoles pc u
  let unauthorizedRedirect := jsOrStr (metaOpt m (fun o => o.unauthorizedRedirect)) "/"
  let allowFail :=
    match metaList m (fun o => o.roles) with
    | some req => decide (0 < req.length) && ! req.any (fun r => rs.contains r)
    | none => false
  if allowFail then (Outcome.redirect unauthorizedRedirect, mem)
  else
    let excludeHit :=
      match metaList m (fun o => o.excludeRoles) with
      | some ex => decide (0 < ex.length) && rs.any (fun r => ex.contains r)
      | none => false
    if excludeHit then (Outcome.redirect unauthorizedRedirect, mem)
    else (Outcome.allow, mem)

/-- The authenticated branch (lines 125-210): unauthenticated-only
routes redirect away (to the remembered path when coming from the
login/register pages with a non-empty cookie, consuming it; else to
`navigateAuthenticatedTo` when truthy, else `afterLoginPath`); otherwise
role-based access control runs only when the permissions block is
enabled, the route declares `roles` or `excludeRoles`, and a user record
is present. -/
def guardAuthenticated (cfg : GuardConfig) (fromR : Route) (m : Option AuthMetaObj)
    (u : Option UserRecord) (mem : String) : Outcome × String :=
  if metaUnauthOnly m then
    if (mem != "") && onAuthPages cfg fromR.path then
      (Outcome.redirect mem, "")
    else
      (Outcome.redirect (jsOrStr (metaOpt m (fun o => o.navigateAuthenticatedTo)) cfg.afterLoginPath), mem)
  else
    match cfg.permissions with
    | some pc =>
      if pc.enabled && ((metaList m (fun o => o.roles)).isSome
          || (metaList m (fun o => o.excludeRoles)).isSome) then
        match u with
        | some user => roleChecks pc m user mem
        | none => (Outcome.allow, mem)
      else (Outcome.allow, mem)
    | none => (Outcome.allow, mem)

/-- The unauthenticated branch (lines 102-122): allow
unauthenticated-only routes; otherwise remember the target (unless it is
an auth page) and redirect to `navigateUnauthenticatedTo` when truthy,
else to `loginPath`. -/
def guardUnauthenticated (cfg : GuardConfig) (toR : Route) (m : Option AuthMetaObj)
    (mem : String) : Outcome × String :=
  if metaUnauthOnly m then (Outcome.allow, mem)
  else
    (Outcome.redirect (jsOrStr (metaOpt m (fun o => o.navigateUnauthenticatedTo)) cfg.loginPath),
      rememberTarget cfg toR mem)

/-- The whole middleware run (directus-auth.ts lines 45-228) as a
function of the target and previous routes, the raw page meta, the
result of `await checkAuthStatus()` together with the session state it
left behind (`Except.error` models the call throwing, reaching the
middleware's catch block), and the current redirect-cookie value.
Returns the outcome and the final cookie value. -/
def guard (cfg : GuardConfig) (toR fromR : Route) (metaRaw : AuthMetaRaw)
    (check : Except Unit SessionState) (mem : String) : Outcome × String :=
  let requiresAuth := requiresAuthOf metaRaw cfg.enableGlobalMiddleware
  let m := authMetaOf metaRaw
  if onAuthPages cfg toR.path then (Outcome.allow, mem)
  else if ! requiresAuth then (Outcome.allow, mem)
  else
    match check with
    | Except.error _ =>
      (Outcome.redirect cfg.loginPath, rememberTarget cfg toR mem)
    | Except.ok st =>
      if st.authenticated then guardAuthenticated cfg fromR m st.user mem
      else guardUnauthenticated cfg toR m mem

/-- The redirect step at the end of a successful `login`
(useDirectusAuth.ts lines 68-79): read the redirect cookie, compute the
target as the cookie value when truthy else
`afterLoginPath || "/"`, clear the cookie, navigate.  Returns the
navigation target and the final cookie value. -/
def loginRedirect (afterLoginPathCfg : Option String) (mem : String) : String × String :=
  let afterLoginPath := jsOrStr afterLoginPathCfg "/"
  let redirectTo := if mem = "" then afterLoginPath else mem
  (redirectTo, "")

/-! Theorems settling the specification claims. -/

/-- C9: after every completed `checkAuthStatus` call the session state
satisfies `authenticated = true` iff the user record is present: success
sets `authenticated = true` and stores the record (returning it), and
failure sets `authenticated = false` and clears the user, returning a
plain value (`none`, the model of `false`) rather than rethrowing. -/
theorem checkAuthStatus_authenticated_iff_user :
    (∀ me : UserRecord, checkAuthStatus (Except.ok me) = (⟨true, some me⟩, some me)) ∧
    checkAuthStatus (Except.error ()) = (⟨false, none⟩, none) ∧
    ∀ resp : Except Unit UserRecord,
      ((checkAuthStatus resp).1.authenticated = true ↔
        ((checkAuthStatus resp).1.user).isSome = true) := by
  refine ⟨fun me => rfl, rfl, fun resp => ?_⟩
  cases resp <;> simp [checkAuthStatus]

/-- C10: a successful `login` reads the redirect cookie itself,
navigates to the remembered path when non-empty and to the configured
after-login path (with its `|| "/"` fallback) otherwise, and clears the
cookie. -/
theorem login_consumes_redirect_memory (alp : Option String) (mem : String) :
    (loginRedirect alp mem).2 = "" ∧
    (mem ≠ "" → (loginRedirect alp mem).1 = mem) ∧
    (mem = "" → (loginRedirect alp mem).1 = jsOrStr alp "/") := by
  refine ⟨rfl, fun h => ?_, fun h => ?_⟩ <;> simp [loginRedirect, h]

/-- Witness for C10 at a concrete non-empty memory and a concrete
configured after-login path. -/
theorem login_consumes_redirect_memory_witness :
    (loginRedirect (some "/home") "/dash").2 = "" ∧
    (loginRedirect (some "/home") "/dash").1 = "/dash" ∧
    (loginRedirect (some "/home") "").1 = "/home" := by
  refine ⟨(login_consumes_redirect_memory (some "/home") "/dash").1,
    (login_consumes_redirect_memory (some "/home") "/dash").2.1 (by decide),
    ?_⟩
  have h := (login_consumes_redirect_memory (some "/home") "").2.2 rfl
  simpa [jsOrStr] using h

/-- C7: the mapping step of the role resolver maps each element of the
normalized sequence independently (position by position), replacing an
element by its mapped value when an entry with a non-empty value exists
for it and leaving it unchanged otherwise — also when the entry's value
is the empty string (JS `mapping[role] || role`). -/
theorem mapping_replaces_only_nonempty_entries (m : List (String × String))
    (roles : List String) (r v : String) (i : Nat) :
    (applyMapping (some m) roles)[i]? = roles[i]?.map (mapRole m) ∧
    (m.lookup r = some v → v ≠ "" → mapRole m r = v) ∧
    (m.lookup r = none → mapRole m r = r) ∧
    (m.lookup r = some "" → mapRole m r = r) := by
  refine ⟨?_, fun h hv => ?_, fun h => ?_, fun h => ?_⟩
  · simp [applyMapping, List.getElem?_map]
  · simp [mapRole, h, hv]
  · simp [mapRole, h]
  · simp [mapRole, h]

/-- Witness for C7 on the mapping `{a ↦ x, b ↦ ""}` and the sequence
`[a, b, c]`: the entry with a value maps, the empty-string entry and the
missing entry leave the role unchanged. -/
theorem mapping_replaces_only_nonempty_entries_witness :
    (applyMapping (some [("a", "x"), ("b", "")]) ["a", "b", "c"])[0]? = some "x" ∧
    mapRole [("a", "x"), ("b", "")] "a" = "x" ∧
    mapRole [("a", "x"), ("b", "")] "b" = "b" ∧
    mapRole [("a", "x"), ("b", "")] "c" = "c" := by
  have h0 := (mapping_replaces_only_nonempty_entries [("a", "x"), ("b", "")] ["a", "b", "c"] "a" "x" 0).1
  have h1 := (mapping_replaces_only_nonempty_entries [("a", "x"), ("b", "")] ["a", "b", "c"] "a" "x" 0).2.1 (by decide) (by decide)
  have h2 := (mapping_replaces_only_nonempty_entries [("a", "x"), ("b", "")] ["a", "b", "c"] "b" "" 0).2.2.2 (by decide)
  have h3 := (mapping_replaces_only_nonempty_entries [("a", "x"), ("b", "")] ["a", "b", "c"] "c" "" 0).2.2.1 (by decide)
  refine ⟨?_, h1, h2, h3⟩
  rw [h0]
  simp [h1]

/-- C5: when the configured transform throws on the raw field value the
role resolver does not propagate the exception and falls back to the raw
value — the result is the one an identical configuration without a
transform produces; in particular, with no mapping and a raw scalar
`"x"`, the resulting role set is `["x"]`. -/
theorem transform_fault_falls_back (u : UserRecord) (pc : PermissionsConfig)
    (f : RoleValue → UserRecord → Except Unit RoleValue)
    (hf : pc.transform = some f)
    (hthrows : f (getField u (jsOrStr pc.field "role")) u = Except.error ()) :
    userRoles (some u) (some pc) = userRoles (some u) (some { pc with transform := none }) ∧
    (pc.enabled = true → pc.mapping = none →
      getField u (jsOrStr pc.field "role") = RoleValue.scalar "x" →
      userRoles (some u) (some pc) = ["x"]) := by
  have hpipe : resolveRoles pc u = resolveRoles { pc with transform := none } u := by
    simp [resolveRoles, applyTransform, hf, hthrows]
  constructor
  · simp [userRoles, hpipe]
  · intro he hm hraw
    rw [hraw] at hthrows
    simp [userRoles, he, resolveRoles, applyTransform, hf, hthrows, hraw, hm,
      normalizeRoles, applyMapping]

/-- Witness for C5: a transform that always throws on a user whose raw
`role` field is the scalar `"x"` yields the role set `["x"]`. -/
theorem transform_fault_falls_back_witness :
    userRoles (some ⟨[("role", RoleValue.scalar "x")]⟩)
      (some { enabled := true, transform := some fun _ _ => Except.error () }) = ["x"] := by
  exact (transform_fault_falls_back ⟨[("role", RoleValue.scalar "x")]⟩
    { enabled := true, transform := some fun _ _ => Except.error () }
    (fun _ _ => Except.error ()) rfl rfl).2 rfl rfl rfl

/-- Reading the single configured role field of a one-field user record. -/
theorem getField_single (key : String) (v : RoleValue) :
    getField ⟨[(key, v)]⟩ key = v := by
  simp [getField, List.lookup]

/-- Truthiness of `permissionsConfig?.enabled` on the global configuration. -/
def permissionsEnabled (cfg : GuardConfig) : Bool :=
  match cfg.permissions with
  | some pc => pc.enabled
  | none => false

/-- C6 counterexample: for the user record whose `role` field is the
scalar `""`, the resolved role sequence is `[""]` with first element
`""`, yet the single-role accessor `userRole` returns `null` — not the
first element. -/
theorem userRole_skips_empty_first_element :
    userRoles (some ⟨[("role", RoleValue.scalar "")]⟩) (some { enabled := true }) = [""] ∧
    (userRoles (some ⟨[("role", RoleValue.scalar "")]⟩) (some { enabled := true })).head? =
      some "" ∧
    userRole (some ⟨[("role", RoleValue.scalar "")]⟩) (some { enabled := true }) = none ∧
    userRole (some ⟨[("role", RoleValue.scalar "")]⟩) (some { enabled := true }) ≠
      (userRoles (some ⟨[("role", RoleValue.scalar "")]⟩) (some { enabled := true })).head? := by
  exact ⟨by decide, by decide, by decide, by decide⟩

/-- C6 (amended): the resolver returns the empty sequence when
`enabled` is false; otherwise it normalizes the value — a sequence
as-is (order and repetitions preserved), a present scalar wrapped, an
absent value empty — and the single-role accessor returns the first
element when it is a non-empty string, and null when the sequence is
empty or its first element is the empty string. -/
theorem userRoles_normalization_and_accessor (xs : List String) (s : String)
    (c : PermissionsConfig) (he : c.enabled = true) (hfield : c.field = none)
    (ht : c.transform = none) (hm : c.mapping = none) :
    userRoles (some ⟨[("role", RoleValue.arr xs)]⟩) (some c) = xs ∧
    userRoles (some ⟨[("role", RoleValue.scalar s)]⟩) (some c) = [s] ∧
    userRoles (some ⟨[("role", RoleValue.nullv)]⟩) (some c) = [] ∧
    (∀ (u : UserRecord) (c2 : PermissionsConfig), c2.enabled = false →
      userRoles (some u) (some c2) = []) ∧
    (∀ (uo : Option UserRecord) (co : Option PermissionsConfig),
      userRoles uo co = [] → userRole uo co = none) ∧
    (s ≠ "" → userRole (some ⟨[("role", RoleValue.scalar s)]⟩) (some c) = some s) ∧
    userRole (some ⟨[("role", RoleValue.scalar "")]⟩) (some c) = none := by
  have hbase : ∀ v, userRoles (some ⟨[("role", v)]⟩) (some c) = normalizeRoles v := by
    intro v
    have hg : getField ⟨[("role", v)]⟩ (jsOrStr c.field "role") = v := by
      rw [hfield]
      exact getField_single "role" v
    simp [userRoles, he, resolveRoles, ht, hm, applyTransform, applyMapping, hg]
  refine ⟨hbase _, hbase _, hbase _, fun u c2 h => by simp [userRoles, h],
    fun uo co h => by simp [userRole, h], fun hs => ?_, ?_⟩
  · simp only [userRole, hbase (RoleValue.scalar s), normalizeRoles]
    simp [hs]
  · simp only [userRole, hbase (RoleValue.scalar ""), normalizeRoles]
    simp

/-- Witness for C6 (amended) at a sequence with a repeated role, the
scalar `"a"` and a configuration with everything optional absent. -/
theorem userRoles_normalization_and_accessor_witness :
    userRoles (some ⟨[("role", RoleValue.arr ["a", "a", "b"])]⟩) (some { enabled := true }) =
      ["a", "a", "b"] ∧
    userRoles (some ⟨[("role", RoleValue.scalar "a")]⟩) (some { enabled := true }) = ["a"] ∧
    userRoles (some ⟨[("role", RoleValue.nullv)]⟩) (some { enabled := true }) = [] ∧
    userRoles (some ⟨[("role", RoleValue.scalar "a")]⟩) (some { enabled := false }) = [] ∧
    userRole (some ⟨[("role", RoleValue.scalar "a")]⟩) (some { enabled := true }) = some "a" := by
  have h := userRoles_normalization_and_accessor ["a", "a", "b"] "a"
    { enabled := true } rfl rfl rfl rfl
  exact ⟨h.1, h.2.1, h.2.2.1, h.2.2.2.1 _ { enabled := false } rfl, h.2.2.2.2.2.1 (by decide)⟩

/-- C8: for an authenticated navigation to a role-requiring route, the
role checks are skipped and the outcome is allow when the global
permissions block is disabled (or absent) or when the session holds no
current user record. -/
theorem rbac_gap_allows (cfg : GuardConfig) (toR fromR : Route) (metaRaw : AuthMetaRaw)
    (uOpt : Option UserRecord) (mem : String)
    (hreq : requiresAuthOf metaRaw cfg.enableGlobalMiddleware = true)
    (hexempt : onAuthPages cfg toR.path = false)
    (hnuo : metaUnauthOnly (authMetaOf metaRaw) = false)
    (_hdecl : (metaList (authMetaOf metaRaw) (fun o => o.roles)).isSome = true ∨
      (metaList (authMetaOf metaRaw) (fun o => o.excludeRoles)).isSome = true)
    (hgap : permissionsEnabled cfg = false ∨ uOpt = none) :
    guard cfg toR fromR metaRaw (Except.ok ⟨true, uOpt⟩) mem = (Outcome.allow, mem) := by
  have hg : guard cfg toR fromR metaRaw (Except.ok ⟨true, uOpt⟩) mem =
      guardAuthenticated cfg fromR (authMetaOf metaRaw) uOpt mem := by
    simp [guard, hexempt, hreq]
  rw [hg]
  rcases hgap with hgp | hgu
  · cases hp : cfg.permissions with
    | none => simp [guardAuthenticated, hnuo, hp]
    | some pc =>
      have hpe : pc.enabled = false := by
        simpa [permissionsEnabled, hp] using hgp
      simp [guardAuthenticated, hnuo, hp, hpe]
  · subst hgu
    cases hp : cfg.permissions with
    | none => simp [guardAuthenticated, hnuo, hp]
    | some pc => simp [guardAuthenticated, hnuo, hp]

/-- Witness for C8: permissions disabled globally while the route
declares an allow-list the user would fail. -/
theorem rbac_gap_allows_witness :
    guard ⟨"/auth/login", "/auth/register", "/", true, some { enabled := false }⟩
      ⟨"/admin", "/admin"⟩ ⟨"/", "/"⟩
      (AuthMetaRaw.objMeta { roles := some ["admin"] })
      (Except.ok ⟨true, some ⟨[("role", RoleValue.scalar "viewer")]⟩⟩) "" =
      (Outcome.allow, "") := by
  exact rbac_gap_allows _ _ _ _ _ _ rfl (by decide) rfl (Or.inl rfl) (Or.inl rfl)

/-- C3: an unauthenticated session navigating to an auth-requiring,
not unauthenticated-only route whose path is not under the login or
register path ends with the requested full path stored in the redirect
memory, and is redirected to the declared (non-empty)
`navigateUnauthenticatedTo`, or to the login path when none is
declared. -/
theorem unauthenticated_redirect_remembers (cfg : GuardConfig) (toR fromR : Route)
    (metaRaw : AuthMetaRaw) (uOpt : Option UserRecord) (mem : String)
    (hreq : requiresAuthOf metaRaw cfg.enableGlobalMiddleware = true)
    (hnuo : metaUnauthOnly (authMetaOf metaRaw) = false)
    (hlogin : strStartsWith toR.path cfg.loginPath = false)
    (hreg : strStartsWith toR.path cfg.registerPath = false) :
    (guard cfg toR fromR metaRaw (Except.ok ⟨false, uOpt⟩) mem).2 = toR.fullPath ∧
    (metaOpt (authMetaOf metaRaw) (fun o => o.navigateUnauthenticatedTo) = none →
      (guard cfg toR fromR metaRaw (Except.ok ⟨false, uOpt⟩) mem).1 =
        Outcome.redirect cfg.loginPath) ∧
    (∀ s, metaOpt (authMetaOf metaRaw) (fun o => o.navigateUnauthenticatedTo) = some s →
      s ≠ "" →
      (guard cfg toR fromR metaRaw (Except.ok ⟨false, uOpt⟩) mem).1 = Outcome.redirect s) := by
  have hexempt : onAuthPages cfg toR.path = false := by
    simp [onAuthPages, hlogin, hreg]
  have hguard : guard cfg toR fromR metaRaw (Except.ok ⟨false, uOpt⟩) mem =
      (Outcome.redirect
        (jsOrStr (metaOpt (authMetaOf metaRaw) (fun o => o.navigateUnauthenticatedTo))
          cfg.loginPath),
        toR.fullPath) := by
    simp [guard, hexempt, hreq, guardUnauthenticated, hnuo, rememberTarget]
  refine ⟨by rw [hguard], fun h => ?_, fun s h hs => ?_⟩
  · rw [hguard]
    simp [jsOrStr, h]
  · rw [hguard]
    simp [jsOrStr, h, hs]

/-- Witness for C3: a protected route with no custom redirect sends the
unauthenticated user to the login path and stores the full path. -/
theorem unauthenticated_redirect_remembers_witness :
    (guard ⟨"/auth/login", "/auth/register", "/", true, none⟩
      ⟨"/dash", "/dash?q=1"⟩ ⟨"/", "/"⟩ (AuthMetaRaw.boolMeta true)
      (Except.ok ⟨false, none⟩) "").1 = Outcome.redirect "/auth/login" ∧
    (guard ⟨"/auth/login", "/auth/register", "/", true, none⟩
      ⟨"/dash", "/dash?q=1"⟩ ⟨"/", "/"⟩ (AuthMetaRaw.boolMeta true)
      (Except.ok ⟨false, none⟩) "").2 = "/dash?q=1" := by
  have h := unauthenticated_redirect_remembers ⟨"/auth/login", "/auth/register", "/", true, none⟩
    ⟨"/dash", "/dash?q=1"⟩ ⟨"/", "/"⟩ (AuthMetaRaw.boolMeta true) none ""
    rfl rfl (by decide) (by decide)
  exact ⟨h.2.1 rfl, h.1⟩

/-- C4: an authenticated session on an unauthenticated-only route is
redirected to the remembered path (consuming the memory) when the
memory is non-empty and the previous path starts with the login or
register path; otherwise the memory is untouched and the redirect goes
to the declared (non-empty) `navigateAuthenticatedTo`, or to the
after-login path when none is declared. -/
theorem unauth_only_redirects_authenticated (cfg : GuardConfig) (toR fromR : Route)
    (o : AuthMetaObj) (uOpt : Option UserRecord) (mem : String)
    (hUO : o.unauthenticatedOnly = true)
    (hexempt : onAuthPages cfg toR.path = false) :
    (mem ≠ "" → onAuthPages cfg fromR.path = true →
      guard cfg toR fromR (AuthMetaRaw.objMeta o) (Except.ok ⟨true, uOpt⟩) mem =
        (Outcome.redirect mem, "")) ∧
    ((mem = "" ∨ onAuthPages cfg fromR.path = false) →
      (guard cfg toR fromR (AuthMetaRaw.objMeta o) (Except.ok ⟨true, uOpt⟩) mem).2 = mem ∧
      (o.navigateAuthenticatedTo = none →
        (guard cfg toR fromR (AuthMetaRaw.objMeta o) (Except.ok ⟨true, uOpt⟩) mem).1 =
          Outcome.redirect cfg.afterLoginPath) ∧
      (∀ s, o.navigateAuthenticatedTo = some s → s ≠ "" →
        (guard cfg toR fromR (AuthMetaRaw.objMeta o) (Except.ok ⟨true, uOpt⟩) mem).1 =
          Outcome.redirect s)) := by
  constructor
  · intro hmem hfrom
    have hb : (mem != "") = true := by
      simpa using hmem
    simp [guard, requiresAuthOf, hexempt, guardAuthenticated, metaUnauthOnly, authMetaOf,
      hUO, hb, hfrom]
  · intro hcase
    have hcond : ((mem != "") && onAuthPages cfg fromR.path) = false := by
      rcases hcase with h | h
      · simp [h]
      · simp [h]
    have hguard : guard cfg toR fromR (AuthMetaRaw.objMeta o) (Except.ok ⟨true, uOpt⟩) mem =
        (Outcome.redirect (jsOrStr o.navigateAuthenticatedTo cfg.afterLoginPath), mem) := by
      simp [guard, requiresAuthOf, hexempt, guardAuthenticated, metaUnauthOnly, authMetaOf,
        hUO, hcond, metaOpt]
    refine ⟨by rw [hguard], fun h => ?_, fun s h hs => ?_⟩
    · rw [hguard]
      simp [jsOrStr, h]
    · rw [hguard]
      simp [jsOrStr, h, hs]

/-- Witness for C4: with a remembered path and a navigation coming from
the login page, the guard redirects to the remembered path and clears
the memory; with an empty memory it falls back to the after-login
path. -/
theorem unauth_only_redirects_authenticated_witness :
    guard ⟨"/auth/login", "/auth/register", "/home", true, none⟩
      ⟨"/welcome", "/welcome"⟩ ⟨"/auth/login", "/auth/login"⟩
      (AuthMetaRaw.objMeta { unauthenticatedOnly := true })
      (Except.ok ⟨true, none⟩) "/dash" = (Outcome.redirect "/dash", "") ∧
    (guard ⟨"/auth/login", "/auth/register", "/home", true, none⟩
      ⟨"/welcome", "/welcome"⟩ ⟨"/auth/login", "/auth/login"⟩
      (AuthMetaRaw.objMeta { unauthenticatedOnly := true })
      (Except.ok ⟨true, none⟩) "").1 = Outcome.redirect "/home" := by
  have h1 := (unauth_only_redirects_authenticated
    ⟨"/auth/login", "/auth/register", "/home", true, none⟩
    ⟨"/welcome", "/welcome"⟩ ⟨"/auth/login", "/auth/login"⟩
    { unauthenticatedOnly := true } none "/dash" rfl (by decide)).1 (by decide) (by decide)
  have h2 := ((unauth_only_redirects_authenticated
    ⟨"/auth/login", "/auth/register", "/home", true, none⟩
    ⟨"/welcome", "/welcome"⟩ ⟨"/auth/login", "/auth/login"⟩
    { unauthenticatedOnly := true } none "" rfl (by decide)).2 (Or.inl rfl)).2.1 rfl
  exact ⟨h1, h2⟩

/-- C1 counterexample: a route declaring both
`roles = ["admin"]` and `excludeRoles = ["admin"]` for a user holding
role `"admin"` yields a redirect to `"/"` — the deny-list is consulted
after the allow-list passes, so the outcome is not Allow. -/
theorem allow_and_deny_same_role_not_allowed :
    guard ⟨"/auth/login", "/auth/register", "/", true, some { enabled := true }⟩
      ⟨"/admin", "/admin"⟩ ⟨"/", "/"⟩
      (AuthMetaRaw.objMeta { roles := some ["admin"], excludeRoles := some ["admin"] })
      (Except.ok ⟨true, some ⟨[("role", RoleValue.scalar "admin")]⟩⟩) "" =
      (Outcome.redirect "/", "") ∧
    Outcome.redirect "/" ≠ Outcome.allow := by
  exact ⟨by decide, by decide⟩

/-- C1 (amended): when a route declares both lists, the allow-list is
evaluated first but not exclusively — when the user's role set meets the
allow-list and also meets the non-empty deny-list, the deny-list check
fires and the guard redirects to the declared unauthorized redirect
(`"/"` when none or empty is declared) instead of allowing. -/
theorem deny_list_checked_after_allow_list (cfg : GuardConfig) (toR fromR : Route)
    (o : AuthMetaObj) (pc : PermissionsConfig) (u : UserRecord) (mem : String)
    (rs xs : List String)
    (hperm : cfg.permissions = some pc) (hen : pc.enabled = true)
    (hUO : o.unauthenticatedOnly = false)
    (hroles : o.roles = some rs) (hex : o.excludeRoles = some xs)
    (hexempt : onAuthPages cfg toR.path = false)
    (hallow : ∃ r ∈ rs, r ∈ resolveRoles pc u)
    (hxne : xs ≠ [])
    (hhit : ∃ r ∈ resolveRoles pc u, r ∈ xs) :
    guard cfg toR fromR (AuthMetaRaw.objMeta o) (Except.ok ⟨true, some u⟩) mem =
      (Outcome.redirect (jsOrStr o.unauthorizedRedirect "/"), mem) := by
  have hxlen : 0 < xs.length := List.length_pos.mpr hxne
  have h1 : ¬ (0 < rs.length ∧ ∀ x ∈ rs, x ∉ resolveRoles pc u) := by
    rcases hallow with ⟨r, hr, hmem⟩
    rintro ⟨-, hall⟩
    exact hall r hr hmem
  simp [guard, requiresAuthOf, hexempt, guardAuthenticated, metaUnauthOnly, authMetaOf,
    hUO, hperm, hen, metaList, hroles, hex, roleChecks, metaOpt, h1, hhit, hxlen]

/-- Witness for C1 (amended): allow-list `["admin"]`, deny-list
`["admin"]`, user role `"admin"`, declared unauthorized redirect
`"/denied"`. -/
theorem deny_list_checked_after_allow_list_witness :
    guard ⟨"/auth/login", "/auth/register", "/", true, some { enabled := true }⟩
      ⟨"/panel", "/panel"⟩ ⟨"/", "/"⟩
      (AuthMetaRaw.objMeta
        { roles := some ["admin"], excludeRoles := some ["admin"],
          unauthorizedRedirect := some "/denied" })
      (Except.ok ⟨true, some ⟨[("role", RoleValue.scalar "admin")]⟩⟩) "m" =
      (Outcome.redirect "/denied", "m") := by
  exact deny_list_checked_after_allow_list
    ⟨"/auth/login", "/auth/register", "/", true, some { enabled := true }⟩
    ⟨"/panel", "/panel"⟩ ⟨"/", "/"⟩
    { roles := some ["admin"], excludeRoles := some ["admin"]
      unauthorizedRedirect := some "/denied" }
    { enabled := true } ⟨[("role", RoleValue.scalar "admin")]⟩ "m" ["admin"] ["admin"]
    rfl rfl rfl rfl rfl (by decide) (by decide) (by decide) (by decide)

/-- C2 counterexample: a session re-validation that fails with
`SessionInvalid` does not throw (`checkAuthStatus` catches and reports
not-authenticated), so the guard takes the unauthenticated branch: with
a declared `navigateUnauthenticatedTo` of `"/custom"` the outcome is a
redirect to `"/custom"`, not to the login path. -/
theorem session_invalid_custom_redirect :
    checkAuthStatus (Except.error ()) = (⟨false, none⟩, none) ∧
    (guard ⟨"/auth/login", "/auth/register", "/", true, none⟩
      ⟨"/dash", "/dash"⟩ ⟨"/", "/"⟩
      (AuthMetaRaw.objMeta { navigateUnauthenticatedTo := some "/custom" })
      (Except.ok (checkAuthStatus (Except.error ())).1) "").1 = Outcome.redirect "/custom" ∧
    Outcome.redirect "/custom" ≠ Outcome.redirect "/auth/login" := by
  exact ⟨rfl, by decide, by decide⟩

/-- C2 (amended): only when the session re-validation call itself
throws (reaching the middleware's catch block) does the guard redirect
to the login path regardless of any declared
`navigateUnauthenticatedTo`, remembering the requested full path —
unless the target is under the login or register path, in which case
the exemption at the top of the middleware allows it before any check. -/
theorem error_path_redirects_to_login (cfg : GuardConfig) (toR fromR : Route)
    (metaRaw : AuthMetaRaw) (mem : String)
    (hreq : requiresAuthOf metaRaw cfg.enableGlobalMiddleware = true) :
    (onAuthPages cfg toR.path = false →
      guard cfg toR fromR metaRaw (Except.error ()) mem =
        (Outcome.redirect cfg.loginPath, toR.fullPath)) ∧
    (onAuthPages cfg toR.path = true →
      guard cfg toR fromR metaRaw (Except.error ()) mem = (Outcome.allow, mem)) := by
  constructor
  · intro hexempt
    simp [guard, hexempt, hreq, rememberTarget]
  · intro hexempt
    simp [guard, hexempt]

/-- Witness for C2 (amended): a throwing re-validation on a protected
route with a declared custom redirect still lands on the login path,
with the target remembered; on a login-prefixed target the guard
allows. -/
theorem error_path_redirects_to_login_witness :
    guard ⟨"/auth/login", "/auth/register", "/", true, none⟩
      ⟨"/dash", "/dash?q=1"⟩ ⟨"/", "/"⟩
      (AuthMetaRaw.objMeta { navigateUnauthenticatedTo := some "/custom" })
      (Except.error ()) "" = (Outcome.redirect "/auth/login", "/dash?q=1") ∧
    guard ⟨"/auth/login", "/auth/register", "/", true, none⟩
      ⟨"/auth/login", "/auth/login"⟩ ⟨"/", "/"⟩
      (AuthMetaRaw.objMeta { navigateUnauthenticatedTo := some "/custom" })
      (Except.error ()) "" = (Outcome.allow, "") := by
  exact ⟨(error_path_redirects_to_login ⟨"/auth/login", "/auth/register", "/", true, none⟩
      ⟨"/dash", "/dash?q=1"⟩ ⟨"/", "/"⟩
      (AuthMetaRaw.objMeta { navigateUnauthenticatedTo := some "/custom" }) "" rfl).1
      (by decide),
    (error_path_redirects_to_login ⟨"/auth/login", "/auth/register", "/", true, none⟩
      ⟨"/auth/login", "/auth/login"⟩ ⟨"/", "/"⟩
      (AuthMetaRaw.objMeta { navigateUnauthenticatedTo := some "/custom" }) "" rfl).2
      (by decide)⟩

end NuxtDirectus
